import Mathlib

/-!
Shallow embedding of the twitch-username-checker client (`src/src/App.tsx`):
the history store (`loadHistory`, `saveToHistory`), the input validator
(`isValidUsername`) and the check operation (`checkUsername`), together with
theorems settling the specification claims about them.
-/

namespace TwitchChecker

/-- `CheckResult` (App.tsx lines 7–11): the outcome of one availability check.
`checkedAt` is the ISO-8601 timestamp string produced by `new Date().toISOString()`. -/
structure CheckResult where
  username : String
  available : Bool
  checkedAt : String
deriving DecidableEq

/-- `MAX_HISTORY` (App.tsx line 5). -/
def MAX_HISTORY : Nat := 5

/-- The validation error message set in `checkUsername` (App.tsx lines 60–62). -/
def validationMsg : String :=
  "Usernames must be 4–25 characters: letters, numbers, and underscores only."

/-- The generic connectivity message of the catch branch (App.tsx line 90),
shown only when the thrown value is not an `Error` instance. -/
def networkErrMsg : String :=
  "Network error — check your connection and try again."

/-- Models the character class stripped by JavaScript `String.prototype.trim`:
the ECMAScript WhiteSpace productions TAB, VT, FF, SP, NBSP, ZWNBSP together
with every Unicode Space_Separator code point (U+0020, U+00A0, U+1680,
U+2000..U+200A, U+202F, U+205F, U+3000), and the LineTerminator productions
LF, CR, LS (U+2028), PS (U+2029). -/
def jsWhitespace (c : Char) : Bool :=
  c == ' ' || c == '\t' || c == '\n' || c == '\r' || c == '\x0b' || c == '\x0c' ||
  c == '\u00A0' || c == '\u1680' ||
  (decide ('\u2000' ≤ c) && decide (c ≤ '\u200A')) ||
  c == '\u202F' || c == '\u205F' || c == '\u3000' ||
  c == '\u2028' || c == '\u2029' || c == '\uFEFF'

/-- Models JavaScript `String.prototype.trim`: strip leading and trailing
whitespace (App.tsx line 56 applies it to the input). -/
def jsTrim (s : String) : String :=
  ⟨((s.data.dropWhile jsWhitespace).reverse.dropWhile jsWhitespace).reverse⟩

/-- Models JavaScript `String.prototype.toLowerCase` (App.tsx line 24); the
usernames compared with it are ASCII, where `Char.toLower` agrees with it. -/
def jsToLower (s : String) : String :=
  ⟨s.data.map Char.toLower⟩

/-- A model of JavaScript JSON values, for the persisted localStorage payload. -/
inductive Json where
  | null
  | bool (b : Bool)
  | num (n : Int)
  | str (s : String)
  | arr (elems : List Json)
  | obj (fields : List (String × Json))

/-- The raw string persisted under `HISTORY_KEY`, abstracted by its
`JSON.parse` outcome: either a string `JSON.parse` throws on, or a string
that parses to the JSON value `j`. -/
inductive StoredString where
  | malformed
  | wellFormed (j : Json)

/-- The localStorage cell for `HISTORY_KEY`: `none` models `getItem`
returning `null` (absent key). -/
abbrev Storage := Option StoredString

/-- Models `JSON.parse`: throws (models as `.error`) on malformed input,
otherwise yields the parsed value. -/
def jsonParse : StoredString → Except String Json
  | .malformed => .error "SyntaxError: Unexpected token"
  | .wellFormed j => .ok j

/-- `loadHistory` (App.tsx lines 13–19):
`try { return JSON.parse(localStorage.getItem(HISTORY_KEY) ?? "[]") } catch { return [] }`.
An absent cell falls back to the literal `"[]"`, which parses to the empty
array; a parse exception is caught and the empty array literal returned.
The returned value is dynamic: the code performs no shape validation. -/
def loadHistory (st : Storage) : Json :=
  match jsonParse (st.getD (.wellFormed (.arr []))) with
  | .ok j => j
  | .error _ => .arr []

/-- `JSON.stringify` image of a `CheckResult` (field insertion order of the
object literal at App.tsx lines 78–82). -/
def CheckResult.toJson (e : CheckResult) : Json :=
  .obj [("username", .str e.username), ("available", .bool e.available),
        ("checkedAt", .str e.checkedAt)]

/-- `JSON.stringify` image of a history list. -/
def encodeHistory (l : List CheckResult) : Json :=
  .arr (l.map CheckResult.toJson)

/-- Reads a JSON value back as a `CheckResult` of the persisted shape the
store itself writes (the `JSON.stringify` image above). This is the spec's
notion of "the expected list" entry, used to state deserializability; the
program performs no such decoding at runtime. -/
def decodeEntry : Json → Option CheckResult
  | .obj [("username", .str u), ("available", .bool a), ("checkedAt", .str c)] =>
      some { username := u, available := a, checkedAt := c }
  | _ => none

/-- Reads a list of JSON values back as `CheckResult`s, failing if any
element does not have the persisted shape. -/
def decodeList : List Json → Option (List CheckResult)
  | [] => some []
  | j :: js =>
    match decodeEntry j, decodeList js with
    | some e, some es => some (e :: es)
    | _, _ => none

/-- Reads a JSON value back as the spec's expected history list: an array of
entries of the persisted shape. -/
def decodeHistory : Json → Option (List CheckResult)
  | .arr js => decodeList js
  | _ => none

/-- The `username` property of a parsed JSON value as the source's
`h.username.toLowerCase()` accesses it: for an object, the string value of
its `username` field (parsed objects have unique keys, so first match is the
field); `none` when the access chain would throw — the value is not an
object, the field is absent (`undefined`), or its value is not a string (no
`toLowerCase`). Extra fields, field order and the types of the other fields
are irrelevant. -/
def jsonUsername : Json → Option String
  | .obj fields =>
      match fields.find? (fun f => f.1 == "username") with
      | some (_, .str u) => some u
      | _ => none
  | _ => none

/-- The pure list core of `saveToHistory` (App.tsx lines 21–29): drop every
entry whose username matches the new entry's case-insensitively, prepend the
new entry, truncate to `MAX_HISTORY`. -/
def saveToHistoryList (entry : CheckResult) (history : List CheckResult) : List CheckResult :=
  let filtered := history.filter fun h => jsToLower h.username != jsToLower entry.username
  (entry :: filtered).take MAX_HISTORY

/-- `saveToHistory` (App.tsx lines 21–29) at the storage level, operating on
the dynamic parsed list exactly as the source does: load, filter by
case-insensitive username, prepend the serialized new entry, truncate,
persist. Returns `none` exactly when the JavaScript code would throw a
`TypeError`: the loaded value is not an array (no `.filter`), or some
element's `username` property is not a string (its `.toLowerCase()` call
throws). Elements with a string `username` pass through unchanged — missing,
extra, reordered or mistyped *other* fields are all kept as-is. -/
def saveToHistory (entry : CheckResult) (st : Storage) : Option (List Json × Storage) :=
  match loadHistory st with
  | .arr history =>
      if history.all fun j => (jsonUsername j).isSome then
        let filtered := history.filter fun j =>
          (jsonUsername j).map jsToLower != some (jsToLower entry.username)
        let updated := (CheckResult.toJson entry :: filtered).take MAX_HISTORY
        some (updated, some (.wellFormed (.arr updated)))
      else none
  | _ => none

/-- A character of the regex class `[a-zA-Z0-9_]` (App.tsx line 41). -/
def isTwitchChar (c : Char) : Bool :=
  (decide ('a' ≤ c) && decide (c ≤ 'z')) || (decide ('A' ≤ c) && decide (c ≤ 'Z')) ||
  (decide ('0' ≤ c) && decide (c ≤ '9')) || c == '_'

/-- `isValidUsername` (App.tsx lines 40–42): `/^[a-zA-Z0-9_]{4,25}$/.test(name)`.
The anchored regex matches exactly the strings of 4 to 25 characters all
drawn from the class. -/
def isValidUsername (name : String) : Bool :=
  decide (4 ≤ name.length) && decide (name.length ≤ 25) && name.data.all isTwitchChar

/-- The component state touched by `checkUsername`: the `result`, `error`,
`loading` and `history` React states plus the localStorage cell. The
`history` state holds the dynamic parsed list (`loadHistory` seeds it and
`saveToHistory` returns it), so its elements are JSON values. -/
structure UiState where
  result : Option CheckResult
  error : Option String
  loading : Bool
  history : List Json
  storage : Storage

/-- Outcome of `res.json()` on a response: a parse rejection (a
`SyntaxError`, which is an `Error` instance carrying a message), or a parsed
body whose `exists` property is the given boolean when present and
`undefined` when absent (`existsField = none`). -/
inductive BodyOutcome where
  | parseError (msg : String)
  | fields (existsField : Option Bool)

/-- Outcome of the `fetch` call: a rejection (no response obtained) carrying
the thrown value — `isError` tells whether it is an `Error` instance, `msg`
its message — or a response with its HTTP status and body. -/
inductive FetchOutcome where
  | thrown (isError : Bool) (msg : String)
  | response (status : Nat) (body : BodyOutcome)

/-- `checkUsername` (App.tsx lines 55–95) as a state transformer. `input` is
the effective string `nameOverride ?? username`; `net` the network outcome;
`now` the `new Date().toISOString()` value. The second component records
whether a network call was made. `res.ok` is status 200–299. When
`saveToHistory` throws (storage not an entry array), the `TypeError` is an
`Error` instance caught by the same catch; `setResult(entry)` has already
run at that point. -/
def checkUsername (input : String) (net : FetchOutcome) (now : String) (s : UiState) :
    UiState × Bool :=
  let trimmed := jsTrim input
  if trimmed = "" then (s, false)
  else if !isValidUsername trimmed then
    ({ s with error := some validationMsg, result := none }, false)
  else
    let s1 : UiState := { s with loading := false, error := none, result := none }
    match net with
    | .thrown isErr msg =>
        ({ s1 with error := some (if isErr then msg else networkErrMsg) }, true)
    | .response status body =>
        if ¬ (200 ≤ status ∧ status ≤ 299) then
          ({ s1 with error := some ("API error: " ++ toString status) }, true)
        else
          match body with
          | .parseError msg => ({ s1 with error := some msg }, true)
          | .fields ex =>
              let entry : CheckResult :=
                { username := trimmed, available := !(ex.getD false), checkedAt := now }
              match saveToHistory entry s.storage with
              | some (updated, st') =>
                  ({ s1 with result := some entry, history := updated, storage := st' }, true)
              | none =>
                  ({ s1 with
                      result := some entry,
                      error := some "TypeError: history.filter is not a function" }, true)

/-- The history list produced by a sequence of appends starting from the
empty history (most recent append last in `es`). -/
def appendAll (es : List CheckResult) : List CheckResult :=
  es.foldl (fun h e => saveToHistoryList e h) []

/-- The deduplication key of an entry: its username lowercased. -/
def keyOf (e : CheckResult) : String := jsToLower e.username

/-- No two entries of the list share a key (case-insensitive username). -/
def KeyDistinct (l : List CheckResult) : Prop :=
  l.Pairwise fun a b => keyOf a ≠ keyOf b

/-- The spec's character rule: ASCII letters, digits, and underscores. -/
def SpecAllowedChar (c : Char) : Prop :=
  ('a' ≤ c ∧ c ≤ 'z') ∨ ('A' ≤ c ∧ c ≤ 'Z') ∨ ('0' ≤ c ∧ c ≤ '9') ∨ c = '_'

/-- The message the spec quotes for validation failures. -/
def specValidationMsg : String :=
  "identifiers must be 4–25 characters: letters, numbers, and underscores only"

/-- A concrete entry for witnesses and counterexamples. -/
def sampleEntry : CheckResult :=
  { username := "shroud", available := false, checkedAt := "2026-01-01T00:00:00.000Z" }

/-- A concrete entry sharing `sampleEntry`'s key up to case. -/
def sampleEntryUpper : CheckResult :=
  { username := "SHROUD", available := true, checkedAt := "2026-01-02T00:00:00.000Z" }

/-- A concrete state for witnesses and counterexamples. -/
def sampleState : UiState :=
  { result := some sampleEntry, error := none, loading := false,
    history := [CheckResult.toJson sampleEntry],
    storage := some (.wellFormed (encodeHistory [sampleEntry])) }

/-- A concrete state whose persisted cell holds the well-formed non-list
JSON payload `2`. -/
def corruptState : UiState :=
  { result := none, error := none, loading := false, history := [],
    storage := some (.wellFormed (.num 2)) }

/-! ## Helper lemmas -/

theorem saveToHistoryList_head (e : CheckResult) (h : List CheckResult) :
    (saveToHistoryList e h).head? = some e := rfl

theorem saveToHistoryList_length (e : CheckResult) (h : List CheckResult) :
    (saveToHistoryList e h).length ≤ MAX_HISTORY := by
  simp only [saveToHistoryList, MAX_HISTORY, List.length_take]
  exact Nat.min_le_left _ _

theorem foldl_save_length (es acc : List CheckResult) (h : acc.length ≤ MAX_HISTORY) :
    (es.foldl (fun h e => saveToHistoryList e h) acc).length ≤ MAX_HISTORY := by
  induction es generalizing acc with
  | nil => simpa using h
  | cons e es ih => exact ih _ (saveToHistoryList_length e acc)

theorem appendAll_length (es : List CheckResult) : (appendAll es).length ≤ MAX_HISTORY :=
  foldl_save_length es [] (by simp [MAX_HISTORY])

theorem mem_filtered_keyNe {e x : CheckResult} {h : List CheckResult}
    (hx : x ∈ h.filter fun y => jsToLower y.username != jsToLower e.username) :
    keyOf x ≠ keyOf e := by
  have := (List.mem_filter.mp hx).2
  simpa [keyOf, bne_iff_ne] using this

theorem keyDistinct_save (e : CheckResult) {h : List CheckResult} (hd : KeyDistinct h) :
    KeyDistinct (saveToHistoryList e h) := by
  unfold saveToHistoryList
  refine List.Pairwise.sublist (List.take_sublist _ _) ?_
  refine List.pairwise_cons.mpr ⟨fun x hx => (mem_filtered_keyNe hx).symm, ?_⟩
  exact List.Pairwise.sublist (List.filter_sublist _) hd

theorem foldl_save_keyDistinct (es acc : List CheckResult) (h : KeyDistinct acc) :
    KeyDistinct (es.foldl (fun h e => saveToHistoryList e h) acc) := by
  induction es generalizing acc with
  | nil => simpa using h
  | cons e es ih => exact ih _ (keyDistinct_save e h)

theorem keyDistinct_appendAll (es : List CheckResult) : KeyDistinct (appendAll es) :=
  foldl_save_keyDistinct es [] List.Pairwise.nil

theorem save_filter_key (e : CheckResult) (h : List CheckResult) :
    (saveToHistoryList e h).filter
      (fun x => jsToLower x.username == jsToLower e.username) = [e] := by
  unfold saveToHistoryList
  rw [show ((e :: h.filter fun y => jsToLower y.username != jsToLower e.username).take
      MAX_HISTORY) =
      e :: ((h.filter fun y => jsToLower y.username != jsToLower e.username).take 4) from rfl]
  rw [List.filter_cons_of_pos (by simp)]
  congr 1
  refine List.filter_eq_nil_iff.mpr fun x hx => ?_
  have hxf := List.take_subset _ _ hx
  have := (List.mem_filter.mp hxf).2
  simpa [bne_iff_ne] using this

theorem save_save_key (h : List CheckResult) (e e' : CheckResult)
    (hk : jsToLower e'.username = jsToLower e.username) :
    saveToHistoryList e' (saveToHistoryList e h) = saveToHistoryList e' h := by
  unfold saveToHistoryList
  simp only [hk]
  rw [show ((e :: h.filter fun y => jsToLower y.username != jsToLower e.username).take
      MAX_HISTORY) =
      e :: ((h.filter fun y => jsToLower y.username != jsToLower e.username).take 4) from rfl]
  rw [List.filter_cons_of_neg (by simp)]
  rw [List.filter_eq_self.mpr fun x hx => (List.mem_filter.mp (List.take_subset _ _ hx)).2]
  rw [show ∀ l : List CheckResult, (e' :: l).take MAX_HISTORY = e' :: l.take 4 from fun _ => rfl,
      show ∀ l : List CheckResult, (e' :: l).take MAX_HISTORY = e' :: l.take 4 from fun _ => rfl]
  simp [List.take_take]

theorem decodeEntry_toJson (e : CheckResult) : decodeEntry (CheckResult.toJson e) = some e := rfl

theorem decodeList_map (l : List CheckResult) :
    decodeList (l.map CheckResult.toJson) = some l := by
  induction l with
  | nil => rfl
  | cons e es ih => simp [decodeList, decodeEntry_toJson, ih]

theorem decodeHistory_encodeHistory (l : List CheckResult) :
    decodeHistory (encodeHistory l) = some l := by
  simp [decodeHistory, encodeHistory, decodeList_map]

theorem jsonUsername_toJson (e : CheckResult) :
    jsonUsername (CheckResult.toJson e) = some e.username := rfl

theorem all_username_toJson (h : List CheckResult) :
    ((h.map CheckResult.toJson).all fun j => (jsonUsername j).isSome) = true := by
  induction h with
  | nil => rfl
  | cons e es ih => simp [jsonUsername_toJson, ih]

theorem filter_map_toJson (entry : CheckResult) (h : List CheckResult) :
    ((h.map CheckResult.toJson).filter fun j =>
        (jsonUsername j).map jsToLower != some (jsToLower entry.username)) =
      (h.filter fun x => jsToLower x.username != jsToLower entry.username).map
        CheckResult.toJson := by
  induction h with
  | nil => rfl
  | cons e es ih =>
      simp only [List.map_cons, List.filter_cons]
      rw [show ((jsonUsername (CheckResult.toJson e)).map jsToLower !=
          some (jsToLower entry.username)) =
          (jsToLower e.username != jsToLower entry.username) from rfl]
      cases hx : jsToLower e.username != jsToLower entry.username with
      | false => simpa using ih
      | true => simp [ih]

theorem saveToHistory_encoded (entry : CheckResult) (st : Storage) (h : List CheckResult)
    (hl : loadHistory st = encodeHistory h) :
    saveToHistory entry st =
      some ((saveToHistoryList entry h).map CheckResult.toJson,
        some (.wellFormed (encodeHistory (saveToHistoryList entry h)))) := by
  unfold saveToHistory
  rw [hl]
  simp only [encodeHistory]
  rw [if_pos (all_username_toJson h), filter_map_toJson entry h]
  simp only [saveToHistoryList, ← List.map_cons, ← List.map_take]

theorem valid_ne_empty {t : String} (h : isValidUsername t = true) : t ≠ "" := by
  intro he
  rw [he] at h
  exact absurd h (by decide)

theorem isTwitchChar_iff (c : Char) : isTwitchChar c = true ↔ SpecAllowedChar c := by
  simp [isTwitchChar, SpecAllowedChar, Bool.or_eq_true, Bool.and_eq_true,
    decide_eq_true_eq, beq_iff_eq, or_assoc]

/-! ## Claim theorems -/

/-- C1: every history reachable by appends from the empty history holds at
most `MAX_HISTORY = 5` entries; each append puts the new entry at the head,
and the resulting list is an initial segment of the prepended-and-filtered
list — what is discarded beyond the cap is its tail end, the oldest entries. -/
theorem C1_history_bounded :
    ∀ es : List CheckResult, (appendAll es).length ≤ MAX_HISTORY ∧
      ∀ (e : CheckResult) (h : List CheckResult),
        (saveToHistoryList e h).head? = some e ∧
        saveToHistoryList e h ++
          (e :: h.filter fun x => jsToLower x.username != jsToLower e.username).drop
            MAX_HISTORY =
          e :: h.filter fun x => jsToLower x.username != jsToLower e.username := by
  intro es
  refine ⟨appendAll_length es, fun e h => ⟨saveToHistoryList_head e h, ?_⟩⟩
  unfold saveToHistoryList
  exact List.take_append_drop _ _

/-- C2: after appending `e` to any history reachable from the empty one, no
two entries share a case-insensitively equal username; exactly one entry of
the result matches `e`'s username case-insensitively, namely `e` itself, and
it sits at the front. -/
theorem C2_no_duplicate_usernames :
    ∀ (es : List CheckResult) (e : CheckResult),
      KeyDistinct (saveToHistoryList e (appendAll es)) ∧
      (saveToHistoryList e (appendAll es)).head? = some e ∧
      (saveToHistoryList e (appendAll es)).filter
        (fun x => jsToLower x.username == jsToLower e.username) = [e] :=
  fun es e =>
    ⟨keyDistinct_save e (keyDistinct_appendAll es), saveToHistoryList_head _ _,
      save_filter_key e _⟩

/-- C3 counterexample: the persisted payload `42` is well-formed JSON that
cannot be deserialized as the expected entry list, yet `loadHistory` returns
it unchanged rather than the empty list, refuting the claim that every
corrupt payload loads as the empty list. -/
theorem C3_counterexample :
    loadHistory (some (.wellFormed (.num 42))) = Json.num 42 ∧
    decodeHistory (Json.num 42) = none ∧
    Json.num 42 ≠ Json.arr [] :=
  ⟨rfl, rfl, fun h => Json.noConfusion h⟩

/-- C3 amended: `loadHistory` always returns a value (the parse exception is
caught); an absent cell or a payload that JSON parsing rejects yields the
empty list; a payload that parses as JSON is returned exactly as parsed,
without any shape validation. -/
theorem C3_load_never_throws :
    loadHistory none = Json.arr [] ∧
    loadHistory (some .malformed) = Json.arr [] ∧
    ∀ j : Json, loadHistory (some (.wellFormed j)) = j :=
  ⟨rfl, rfl, fun _ => rfl⟩

/-- C4: the validator accepts an input exactly when its trimmed form consists
only of ASCII letters, digits and underscores and is 4 to 25 characters
long. -/
theorem C4_validator_rule :
    ∀ s : String, isValidUsername (jsTrim s) = true ↔
      ((∀ c ∈ (jsTrim s).data, SpecAllowedChar c) ∧
        4 ≤ (jsTrim s).length ∧ (jsTrim s).length ≤ 25) := by
  intro s
  generalize jsTrim s = t
  simp only [isValidUsername, Bool.and_eq_true, decide_eq_true_eq, List.all_eq_true,
    isTwitchChar_iff]
  tauto

/-- C5 counterexample: on the invalid input `"ab"` the reported message is
the code's `"Usernames must be 4–25 characters: ..."` string, which is not
the message `"identifiers must be 4–25 characters: ..."` the claim quotes. -/
theorem C5_counterexample :
    (checkUsername "ab" (.response 200 (.fields (some true))) "t" sampleState).1.error =
      some validationMsg ∧
    validationMsg ≠ specValidationMsg :=
  ⟨rfl, by decide⟩

/-- C5 amended: for every input whose trimmed form is nonempty and fails
validation, the check makes no network call, reports the stable message
"Usernames must be 4–25 characters: letters, numbers, and underscores only."
and clears any prior result; history and storage are untouched. -/
theorem C5_validation_failure :
    ∀ (input : String) (net : FetchOutcome) (now : String) (s : UiState),
      jsTrim input ≠ "" → isValidUsername (jsTrim input) = false →
      checkUsername input net now s =
        ({ s with error := some validationMsg, result := none }, false) := by
  intro input net now s h1 h2
  simp [checkUsername, h1, h2]

/-- C5 witness: the amended behavior at the concrete invalid input `"ab"`. -/
theorem C5_validation_failure_witness :
    jsTrim "ab" ≠ "" ∧ isValidUsername (jsTrim "ab") = false ∧
    checkUsername "ab" (.response 200 (.fields (some true))) "t" sampleState =
      ({ sampleState with error := some validationMsg, result := none }, false) :=
  ⟨by decide, by decide,
    C5_validation_failure "ab" (.response 200 (.fields (some true))) "t" sampleState
      (by decide) (by decide)⟩

/-- C6: appending the same entry twice equals appending it once; appending an
entry with the same case-insensitive username collapses to a single append —
the old entry is replaced, the new one is at the front, and it is the only
entry with that username key. -/
theorem C6_append_idempotent :
    ∀ (h : List CheckResult) (e e' : CheckResult),
      saveToHistoryList e (saveToHistoryList e h) = saveToHistoryList e h ∧
      (jsToLower e'.username = jsToLower e.username →
        saveToHistoryList e' (saveToHistoryList e h) = saveToHistoryList e' h ∧
        (saveToHistoryList e' (saveToHistoryList e h)).head? = some e' ∧
        (saveToHistoryList e' (saveToHistoryList e h)).filter
          (fun x => jsToLower x.username == jsToLower e'.username) = [e']) := by
  intro h e e'
  refine ⟨save_save_key h e e rfl, fun hk => ⟨save_save_key h e e' hk, ?_, ?_⟩⟩
  · rw [save_save_key h e e' hk]
    exact saveToHistoryList_head _ _
  · rw [save_save_key h e e' hk]
    exact save_filter_key _ _

/-- C6 witness: re-appending `shroud` is a no-op, and appending `SHROUD`
after `shroud` collapses to appending `SHROUD` alone. -/
theorem C6_append_idempotent_witness :
    jsToLower sampleEntryUpper.username = jsToLower sampleEntry.username ∧
    saveToHistoryList sampleEntry (saveToHistoryList sampleEntry [sampleEntry]) =
      saveToHistoryList sampleEntry [sampleEntry] ∧
    saveToHistoryList sampleEntryUpper (saveToHistoryList sampleEntry [sampleEntry]) =
      saveToHistoryList sampleEntryUpper [sampleEntry] :=
  ⟨by decide, (C6_append_idempotent [sampleEntry] sampleEntry sampleEntryUpper).1,
    ((C6_append_idempotent [sampleEntry] sampleEntry sampleEntryUpper).2 (by decide)).1⟩

/-- C7 counterexample: on a storage state holding the well-formed JSON
payload `2`, append throws (`.filter` on a number) — no list is produced or
persisted at all, refuting the round-trip claim for that storage state. -/
theorem C7_counterexample :
    ¬ ∃ l st', saveToHistory sampleEntry (some (.wellFormed (.num 2))) = some (l, st') := by
  rintro ⟨l, st', h⟩
  have hn : (none : Option (List Json × Storage)) = some (l, st') := h
  exact Option.noConfusion hn

/-- C7 amended: whenever append does not throw — the loaded payload is an
array whose elements each carry a string `username` property, as any state
the store itself wrote does — the persisted value loads back as exactly the
returned list, whose first element is the serialization of the appended
entry; and when the loaded payload is a list the store itself encodes, the
returned list is exactly the serialized `saveToHistoryList` result and
deserializes back to it. -/
theorem C7_roundtrip :
    ∀ (st : Storage) (e : CheckResult) (l : List Json) (st' : Storage),
      saveToHistory e st = some (l, st') →
      loadHistory st' = Json.arr l ∧
      l.head? = some (CheckResult.toJson e) ∧
      ∀ h : List CheckResult, loadHistory st = encodeHistory h →
        l = (saveToHistoryList e h).map CheckResult.toJson ∧
        decodeHistory (loadHistory st') = some (saveToHistoryList e h) := by
  intro st e l st' hsave
  have h12 : loadHistory st' = Json.arr l ∧ l.head? = some (CheckResult.toJson e) := by
    unfold saveToHistory at hsave
    split at hsave
    · split at hsave
      · simp only [Option.some.injEq, Prod.mk.injEq] at hsave
        obtain ⟨rfl, rfl⟩ := hsave
        exact ⟨rfl, rfl⟩
      · exact absurd hsave (by simp)
    · exact absurd hsave (by simp)
  refine ⟨h12.1, h12.2, fun h hl => ?_⟩
  have henc := saveToHistory_encoded e st h hl
  rw [hsave] at henc
  simp only [Option.some.injEq, Prod.mk.injEq] at henc
  obtain ⟨rfl, rfl⟩ := henc
  exact ⟨rfl, by rw [h12.1]; exact decodeHistory_encodeHistory _⟩

/-- C7 witness: the round-trip at the empty storage cell and a concrete
entry, including the serialized-store part at the empty history. -/
theorem C7_roundtrip_witness :
    saveToHistory sampleEntry none =
      some ([CheckResult.toJson sampleEntry],
        some (.wellFormed (Json.arr [CheckResult.toJson sampleEntry]))) ∧
    loadHistory (some (.wellFormed (Json.arr [CheckResult.toJson sampleEntry]))) =
      Json.arr [CheckResult.toJson sampleEntry] ∧
    ([CheckResult.toJson sampleEntry] : List Json).head? =
      some (CheckResult.toJson sampleEntry) ∧
    loadHistory (none : Storage) = encodeHistory [] ∧
    ([CheckResult.toJson sampleEntry] =
        (saveToHistoryList sampleEntry []).map CheckResult.toJson ∧
      decodeHistory
          (loadHistory (some (.wellFormed (Json.arr [CheckResult.toJson sampleEntry])))) =
        some (saveToHistoryList sampleEntry [])) :=
  ⟨rfl,
    (C7_roundtrip none sampleEntry [CheckResult.toJson sampleEntry]
      (some (.wellFormed (Json.arr [CheckResult.toJson sampleEntry]))) rfl).1,
    (C7_roundtrip none sampleEntry [CheckResult.toJson sampleEntry]
      (some (.wellFormed (Json.arr [CheckResult.toJson sampleEntry]))) rfl).2.1,
    rfl,
    (C7_roundtrip none sampleEntry [CheckResult.toJson sampleEntry]
      (some (.wellFormed (Json.arr [CheckResult.toJson sampleEntry]))) rfl).2.2 [] rfl⟩

/-- C8 counterexample: when no response is obtained, `fetch` rejects with a
`TypeError` — an `Error` instance — so the surfaced message is the thrown
error's own message (here "Failed to fetch"), not the code's generic
connectivity message, refuting the claim's last clause. -/
theorem C8_counterexample :
    (checkUsername "shroud" (.thrown true "Failed to fetch") "t" sampleState).1.error =
      some "Failed to fetch" ∧
    "Failed to fetch" ≠ networkErrMsg :=
  ⟨rfl, by decide⟩

/-- C8 amended: for a validated input, a non-2xx response yields the error
message "API error: ⟨status⟩" carrying the status code, with no result and
history and storage untouched; when no response is obtained the surfaced
message is the thrown value's own message when it is an `Error` instance (as
`fetch`'s `TypeError` is), and the generic connectivity message otherwise —
again with no result and history and storage untouched. -/
theorem C8_transport_errors :
    ∀ (input now : String) (s : UiState) (status : Nat) (body : BodyOutcome)
      (isErr : Bool) (msg : String),
      isValidUsername (jsTrim input) = true →
      (¬ (200 ≤ status ∧ status ≤ 299) →
        checkUsername input (.response status body) now s =
          ({ s with
              loading := false, result := none,
              error := some ("API error: " ++ toString status) }, true)) ∧
      checkUsername input (.thrown isErr msg) now s =
        ({ s with
            loading := false, result := none,
            error := some (if isErr then msg else networkErrMsg) }, true) := by
  intro input now s status body isErr msg hv
  have hne := valid_ne_empty hv
  constructor
  · intro hst
    simp [checkUsername, hne, hv, hst]
  · simp [checkUsername, hne, hv]

/-- C8 witness: the amended behavior at a concrete HTTP 500 response and a
concrete non-`Error` rejection. -/
theorem C8_transport_errors_witness :
    isValidUsername (jsTrim "shroud") = true ∧ ¬ (200 ≤ 500 ∧ 500 ≤ 299) ∧
    checkUsername "shroud" (.response 500 (.fields none)) "t" sampleState =
      ({ sampleState with
          loading := false, result := none,
          error := some ("API error: " ++ toString 500) }, true) ∧
    checkUsername "shroud" (.thrown false "x") "t" sampleState =
      ({ sampleState with
          loading := false, result := none,
          error := some networkErrMsg }, true) :=
  ⟨by decide, by decide,
    (C8_transport_errors "shroud" "t" sampleState 500 (.fields none) false "x"
      (by decide)).1 (by decide),
    (C8_transport_errors "shroud" "t" sampleState 500 (.fields none) false "x"
      (by decide)).2⟩

/-- C9 counterexample: at the reachable storage payload `2`, a successful
200 lookup of the validated `"shroud"` with `exists = true` produces the
`CheckResult` (the result is set) but it is NOT appended: `saveToHistory`
throws (`.filter` on a number), history and storage are unchanged, and the
`TypeError`'s message displaces the result display — refuting "that
CheckResult is immediately appended to the History Store". -/
theorem C9_counterexample :
    (checkUsername "shroud" (.response 200 (.fields (some true))) "t" corruptState).1.result =
      some { username := "shroud", available := false, checkedAt := "t" } ∧
    (checkUsername "shroud" (.response 200 (.fields (some true))) "t" corruptState).1.history =
      corruptState.history ∧
    (checkUsername "shroud" (.response 200 (.fields (some true))) "t" corruptState).1.storage =
      corruptState.storage ∧
    (checkUsername "shroud" (.response 200 (.fields (some true))) "t" corruptState).1.error =
      some "TypeError: history.filter is not a function" ∧
    saveToHistory { username := "shroud", available := false, checkedAt := "t" }
      corruptState.storage = none :=
  ⟨rfl, rfl, rfl, rfl, rfl⟩

/-- C9 amended: on a 2xx response whose body carries the boolean `exists`
field, the produced result has `available = !exists` and the exact trimmed,
case-preserved username, and is shown; it is immediately appended to the
history store (state and persisted cell) exactly when the save does not
throw, and the save succeeds — yielding the serialized `saveToHistoryList`
result — on every payload the store itself writes (absent and unparseable
payloads included, both loading as the empty list). -/
theorem C9_success_appends :
    ∀ (input now : String) (s : UiState) (status : Nat) (ex : Bool),
      isValidUsername (jsTrim input) = true →
      200 ≤ status → status ≤ 299 →
      (∀ (l : List Json) (st' : Storage),
        saveToHistory { username := jsTrim input, available := !ex, checkedAt := now }
            s.storage = some (l, st') →
        checkUsername input (.response status (.fields (some ex))) now s =
          ({ s with
              loading := false, error := none,
              result := some { username := jsTrim input, available := !ex, checkedAt := now },
              history := l, storage := st' }, true)) ∧
      ∀ h : List CheckResult, loadHistory s.storage = encodeHistory h →
        saveToHistory { username := jsTrim input, available := !ex, checkedAt := now }
            s.storage =
          some ((saveToHistoryList
              { username := jsTrim input, available := !ex, checkedAt := now } h).map
              CheckResult.toJson,
            some (.wellFormed (encodeHistory (saveToHistoryList
              { username := jsTrim input, available := !ex, checkedAt := now } h)))) := by
  intro input now s status ex hv h1 h2
  have hne := valid_ne_empty hv
  refine ⟨fun l st' hsave => ?_, fun h hl => saveToHistory_encoded _ s.storage h hl⟩
  simp [checkUsername, hne, hv, h1, h2, hsave]

/-- C9 witness: checking `"shroud"` against a 200 response reporting
`exists = true` on the `sampleState` storage, whose payload is the store's
own encoding of one entry. -/
theorem C9_success_appends_witness :
    isValidUsername (jsTrim "shroud") = true ∧ 200 ≤ 200 ∧ 200 ≤ 299 ∧
    saveToHistory { username := "shroud", available := false, checkedAt := "t" }
        sampleState.storage =
      some ([CheckResult.toJson { username := "shroud", available := false, checkedAt := "t" }],
        some (.wellFormed (Json.arr
          [CheckResult.toJson { username := "shroud", available := false, checkedAt := "t" }]))) ∧
    checkUsername "shroud" (.response 200 (.fields (some true))) "t" sampleState =
      ({ sampleState with
          loading := false, error := none,
          result := some { username := "shroud", available := false, checkedAt := "t" },
          history :=
            [CheckResult.toJson { username := "shroud", available := false, checkedAt := "t" }],
          storage := some (.wellFormed (Json.arr
            [CheckResult.toJson
              { username := "shroud", available := false, checkedAt := "t" }])) },
        true) :=
  ⟨by decide, by decide, by decide, rfl,
    (C9_success_appends "shroud" "t" sampleState 200 true
        (by decide) (by decide) (by decide)).1
      [CheckResult.toJson { username := "shroud", available := false, checkedAt := "t" }]
      (some (.wellFormed (Json.arr
        [CheckResult.toJson { username := "shroud", available := false, checkedAt := "t" }])))
      rfl⟩

/-- C10: an input that trims to the empty string makes the check a complete
no-op — the state (result, error, loading, history, storage) is returned
unchanged and no network call is made. -/
theorem C10_blank_input_noop :
    ∀ (input : String) (net : FetchOutcome) (now : String) (s : UiState),
      jsTrim input = "" → checkUsername input net now s = (s, false) := by
  intro input net now s h
  simp [checkUsername, h]

/-- C10 witness: an input of only whitespace — an ordinary space between an
ideographic space (U+3000) and an en quad (U+2000) — is a no-op. -/
theorem C10_blank_input_noop_witness :
    jsTrim "\u3000 \u2000" = "" ∧
    checkUsername "\u3000 \u2000" (.response 200 (.fields (some true))) "t" sampleState =
      (sampleState, false) :=
  ⟨by decide,
    C10_blank_input_noop "\u3000 \u2000" (.response 200 (.fields (some true))) "t" sampleState
      (by decide)⟩

end TwitchChecker
